import Mathlib

/-!
# Shallow embedding of `src/BleManager.js` (react-native-ble-plx fork)

This file embeds, in Lean, the parts of `BleManager.js` needed to settle the
frozen claims: the shared binary helpers (`calculateChecksum`, `XOR`,
`base64ArrayBuffer`), the device-protocol frame builders (scales, tracker,
glucometer), and the state-passing model of the mediation layer
(`_callPromise` / `destroy` / `_handleMonitorCharacteristic`).

Modelling conventions:
* JavaScript numbers are modelled as `Nat` restricted to the nonnegative
  int32 range actually exercised by the code (frame bytes); on that range the
  JS bitwise operators `&`, `|`, `^`, `<<`, `>>` coincide with `Nat.land`,
  `Nat.lor`, `Nat.xor`, `Nat.shiftLeft`, `Nat.shiftRight`.
* A `Uint8Array` element store applies JS `ToUint8`, i.e. `% 256`; a
  `Uint16Array` element store applies `ToUint16`, i.e. `% 65536`.
* Possibly-NaN JS values (results of `Number(...)` / `parseInt(...)`) are
  modelled as `Option Nat`, `none` standing for NaN; `ToUint8 NaN = 0` and
  `ToInt32 NaN = 0`.
* Stateful manager code is modelled by explicit state passing over
  `MonitorState` / explicit settlement lists; a thrown JS exception is an
  `Except.error`.
-/

/-! ## JS string and number primitives used by the codecs -/

/-- JS `String.prototype.slice(a, b)` on a character list (for the index
ranges used by the codecs: `0 ≤ a ≤ b`). -/
def jsSlice (s : List Char) (a b : Nat) : List Char :=
  (s.drop a).take (b - a)

/-- Value of one hexadecimal digit character, `none` for a non-digit. -/
def hexDigitVal (c : Char) : Option Nat :=
  if '0' ≤ c ∧ c ≤ '9' then some (c.toNat - '0'.toNat)
  else if 'a' ≤ c ∧ c ≤ 'f' then some (c.toNat - 'a'.toNat + 10)
  else if 'A' ≤ c ∧ c ≤ 'F' then some (c.toNat - 'A'.toNat + 10)
  else none

/-- Accumulating loop of JS `parseInt(s, 16)`: consume the maximal leading
run of hex digits. -/
def parseIntHexGo : List Char → Nat → Nat
  | [], acc => acc
  | c :: rest, acc =>
    match hexDigitVal c with
    | some d => parseIntHexGo rest (acc * 16 + d)
    | none => acc

/-- JS `parseInt(s, 16)` without a `0x` prefix: `none` (NaN) when the first
character is not a hex digit, otherwise the value of the maximal leading
digit run.  (Leading-whitespace and sign handling are omitted: no codec
input exercises them.) -/
def parseIntHexCore (cs : List Char) : Option Nat :=
  match cs with
  | [] => none
  | c :: _ =>
    match hexDigitVal c with
    | some _ => some (parseIntHexGo cs 0)
    | none => none

/-- JS `parseInt(s, 16)`: an optional `0x` / `0X` prefix is stripped before
parsing.  (JS `Number(s)` agrees with this on the well-formed `0X…` hex
literals the glucometer codec builds, so it also models the `ToNumber`
coercion applied by `Uint8Array` element stores of those strings.) -/
def parseIntHex16 (cs : List Char) : Option Nat :=
  match cs with
  | '0' :: 'x' :: rest => parseIntHexCore rest
  | '0' :: 'X' :: rest => parseIntHexCore rest
  | _ => parseIntHexCore cs

/-- The JS string `'0X' + n.toString(16)` built by the glucometer codec. -/
def jsHexLiteral (n : Nat) : List Char :=
  '0' :: 'X' :: Nat.toDigits 16 n

/-- `ToUint8(ToNumber(s))` for a string element stored into a `Uint8Array`:
parse as above (`NaN ↦ 0`), then truncate to 8 bits. -/
def toUint8OfHexString (cs : List Char) : Nat :=
  (parseIntHex16 cs).getD 0 % 256

/-- `parseInt(s, 16)` coerced by later JS arithmetic (`NaN` never arises on
the literals the glucometer code feeds back in; `getD 0` is the `ToInt32`
coercion of NaN). -/
def parseIntHexVal (cs : List Char) : Nat :=
  (parseIntHex16 cs).getD 0

/-! ## Shared binary helpers (`BleManager.js` lines 171–232, 2042–2055) -/

/-- `calculateChecksum(array)` (lines 171–180): sum of all elements,
truncated to 8 bits with `& 0xff`. -/
def calculateChecksum (array : List Nat) : Nat :=
  (array.foldl (fun sum v => sum + v) 0) &&& 0xff

/-- One iteration of the `XOR` loop (lines 2046–2052): a non-numeric element
(`isNaN`) is skipped, a numeric one is folded with `^=`; `ToInt32 NaN = 0`,
so a NaN accumulator becomes `0` at the first fold. -/
def xorStep (total : Option Nat) (x : Option Nat) : Option Nat :=
  match x with
  | none => total
  | some v => some (total.getD 0 ^^^ v)

/-- `XOR(input)` (lines 2042–2055) for an array argument.  `var total =
Number(input[0])` seeds the accumulator with the first element (NaN for a
non-numeric first element or an empty array), and the loop then runs over
*all* indices including 0, so a numeric first element is XORed once more
against itself.  Elements are `Option Nat` (`none` = non-numeric); the
result `none` is NaN.  (For a non-array argument the source returns
`false`; that branch is outside this list model.) -/
def XOR (input : List (Option Nat)) : Option Nat :=
  input.foldl xorStep (input.headD none)

/-- One step of the spec's XOR fold (refinement comparison only): fold a
numeric element with exclusive-or, skip a non-numeric one. -/
def specXorStep (acc : Nat) (x : Option Nat) : Nat :=
  match x with
  | none => acc
  | some v => acc ^^^ v

/-- The spec's words for the XOR checksum (refinement comparison only):
left fold of exclusive-or over the numeric elements, the first element
included exactly once, non-numeric elements skipped. -/
def specXorFold (input : List (Option Nat)) : Nat :=
  input.foldl specXorStep 0

/-! ## Base64 encoder (`base64ArrayBuffer`, lines 182–232) -/

/-- The encoder's alphabet string (line 184). -/
def encodings : List Char :=
  ['A','B','C','D','E','F','G','H','I','J','K','L','M','N','O','P','Q','R',
   'S','T','U','V','W','X','Y','Z','a','b','c','d','e','f','g','h','i','j',
   'k','l','m','n','o','p','q','r','s','t','u','v','w','x','y','z','0','1',
   '2','3','4','5','6','7','8','9','+','/']

/-- `encodings[n]` (indices stay below 64 in every use). -/
def encChar (n : Nat) : Char :=
  encodings.getD n '?'

/-- Body of the main loop (lines 195–207): one 3-byte chunk producing four
symbols, with the source's masks and shifts. -/
def encodeTriple (x y z : Nat) : List Char :=
  let chunk := (x <<< 16) ||| (y <<< 8) ||| z
  let a := (chunk &&& 16515072) >>> 18
  let b := (chunk &&& 258048) >>> 12
  let c := (chunk &&& 4032) >>> 6
  let d := chunk &&& 63
  [encChar a, encChar b, encChar c, encChar d]

/-- `byteRemainder == 1` branch (lines 210–218). -/
def encodeRemainder1 (x : Nat) : List Char :=
  let a := (x &&& 252) >>> 2
  let b := (x &&& 3) <<< 4
  [encChar a, encChar b, '=', '=']

/-- `byteRemainder == 2` branch (lines 219–229). -/
def encodeRemainder2 (x y : Nat) : List Char :=
  let chunk := (x <<< 8) ||| y
  let a := (chunk &&& 64512) >>> 10
  let b := (chunk &&& 1008) >>> 4
  let c := (chunk &&& 15) <<< 2
  [encChar a, encChar b, encChar c, '=']

/-- The loop structure of `base64ArrayBuffer` over the byte list: complete
3-byte chunks first (`mainLength`), then the remainder branch. -/
def encodeChunks : List Nat → List Char
  | x :: y :: z :: rest => encodeTriple x y z ++ encodeChunks rest
  | [x, y] => encodeRemainder2 x y
  | [x] => encodeRemainder1 x
  | [] => []

/-- `base64ArrayBuffer(arrayBuffer)` (lines 182–232): `new
Uint8Array(arrayBuffer)` converts each element with `ToUint8` (`% 256`),
then the chunk loop encodes. -/
def base64ArrayBuffer (arrayBuffer : List Nat) : List Char :=
  encodeChunks (arrayBuffer.map (· % 256))

/-- A standard base64 symbol decoder (refinement side of the round-trip
claim): position of the character in the standard alphabet. -/
def decodeBase64Char (c : Char) : Nat :=
  encodings.indexOf c

/-- A standard base64 decoder (refinement side of the round-trip claim):
4 symbols per group, `'='` padding marking a 1- or 2-byte final group. -/
def decodeBase64 : List Char → List Nat
  | a :: b :: c :: d :: rest =>
    if c = '=' then
      [(decodeBase64Char a <<< 2) ||| (decodeBase64Char b >>> 4)]
    else if d = '=' then
      let n := (decodeBase64Char a <<< 18) ||| (decodeBase64Char b <<< 12) |||
        (decodeBase64Char c <<< 6)
      [n >>> 16, (n >>> 8) % 256]
    else
      let n := (decodeBase64Char a <<< 18) ||| (decodeBase64Char b <<< 12) |||
        (decodeBase64Char c <<< 6) ||| decodeBase64Char d
      n >>> 16 :: ((n >>> 8) % 256) :: (n % 256) :: decodeBase64 rest
  | _ => []

/-- Number of trailing `'='` padding characters of an encoded string. -/
def padCount (l : List Char) : Nat :=
  (l.reverse.takeWhile (fun c => c = '=')).length

/-! ## Scale codecs (`setUserProfileToAlternativeScale` lines 865–908,
`setUserProfileToScales` lines 1708–1729,
`selectProfileAlternativeScale` lines 947–980) -/

/-- `parseInt(user.slice(a, b), 16)` stored into a `Uint8Array` slot
(`ToUint8(NaN) = 0`). -/
def userHexByte (user : List Char) (a b : Nat) : Nat :=
  (parseIntHexCore (jsSlice user a b)).getD 0 % 256

/-- The 13-element `Uint8Array` built by `setUserProfileToAlternativeScale`
(lines 877–893): height clamped to `[100, 218]`, age clamped to `[10, 98]`
(line 878 also writes the clamp back into `age`), gender passed through.
`parseInt` applied to the number arguments is the identity on the integer
range modelled here. -/
def setUserProfileToAlternativeScaleFrame (user : List Char) (age height gender : Nat) :
    List Nat :=
  let heightUnit := if height < 100 then 100 else if height > 218 then 218 else height
  let ageUnit := if age < 10 then 10 else if age > 98 then 98 else age
  [0x81, 0x00, 0x81,
   userHexByte user 0 2, userHexByte user 2 4, userHexByte user 4 6, userHexByte user 6 8,
   0x00, heightUnit % 256, ageUnit % 256, gender % 256, 0x00, 0x00]

/-- The 7-element `Uint16Array` built by `setUserProfileToScales`
(lines 1718–1721): `ageUnit` is computed (line 1718) but never stored;
`genderUnit` uses the *unclamped* `age`; element stores truncate to 16
bits. -/
def setUserProfileToScalesFrame (age height : Nat) (gender : List Char) : List Nat :=
  let _ageUnit := if age < 10 then 10 else if age > 98 then 98 else age
  let genderUnit := if gender = "male".toList then age + 128 else age
  let heightUnit := if height < 100 then 100 else if height > 218 then 218 else height
  [0xfd % 65536, 0x53 % 65536, 0x00 % 65536, 0x00 % 65536, 0xff % 65536,
   genderUnit % 65536, heightUnit % 65536]

/-- The bytes `base64ArrayBuffer` actually encodes for
`setUserProfileToScales` (line 1723): `new Uint8Array(uint16Array)`
converts each 16-bit element with `ToUint8`. -/
def setUserProfileToScalesBytes (age height : Nat) (gender : List Char) : List Nat :=
  (setUserProfileToScalesFrame age height gender).map (· % 256)

/-- A thrown JS exception relevant to the claims. -/
inductive JSError where
  | referenceError (name : String)
deriving DecidableEq

/-- Reading a `const` binding while it is still in its temporal dead zone
(`none` = not yet initialized) throws a `ReferenceError`. -/
def tdzRead (name : String) (binding : Option Nat) : Except JSError Nat :=
  match binding with
  | none => .error (.referenceError name)
  | some v => .ok v

/-- `selectProfileAlternativeScale` up to the transport write (lines
956–967): line 956 reads `measurementUnit` inside its own initializer
(`const measurementUnit = measurementUnit === 'metric' ? 0 : 1`), i.e.
while the binding is still in its temporal dead zone, so evaluation throws
before the frame is used. -/
def selectProfileAlternativeScaleValue (user : List Char) : Except JSError (List Char) := do
  let measurementUnitBinding : Option Nat := none
  let selfRead ← tdzRead "measurementUnit" measurementUnitBinding
  let _measurementUnit := if selfRead == 0 then 0 else 1
  let uint16 : List Nat :=
    [0x41, 0x00, 0x82,
     userHexByte user 0 2, userHexByte user 2 4, userHexByte user 4 6, userHexByte user 6 8,
     0x00, 0x00, 0x00, 0x00, 0x00, 0x00]
  pure (base64ArrayBuffer uint16)

/-- The transport writes issued by one `selectProfileAlternativeScale`
call: the single `BleModule.writeCharacteristicForDevice` value when frame
building succeeds, nothing when it throws first. -/
def selectProfileAlternativeScaleWrites (user : List Char) : List (List Char) :=
  match selectProfileAlternativeScaleValue user with
  | .ok value => [value]
  | .error _ => []

/-! ## Tracker codec (`setDeviceTime`, lines 1037–1069) -/

/-- `parseInt(date.slice(a, b), 16)` stored into a `Uint8Array` slot. -/
def dateHexByte (date : List Char) (a b : Nat) : Nat :=
  (parseIntHexCore (jsSlice date a b)).getD 0 % 256

/-- The 16-element `Uint8Array` built by `setDeviceTime` (lines 1046–1054):
opcode `0x01`, the six two-digit date fields parsed as hexadecimal, zero
filler, and `calculateChecksum` of the array (slot 15 still zero) written
into slot 15. -/
def setDeviceTimeFrame (date : List Char) : List Nat :=
  let f :=
    [0x01,
     dateHexByte date 2 4, dateHexByte date 5 7, dateHexByte date 8 10,
     dateHexByte date 11 13, dateHexByte date 14 16, dateHexByte date 17 19,
     0, 0, 0, 0, 0, 0, 0, 0, 0]
  f.set 15 (calculateChecksum f % 256)

/-! ## Glucometer codecs (`fetchAdditionalGlucometerRecord` lines 1932–1985,
`setGlucometerTime` lines 1987–2040) -/

/-- The checksum string both glucometer commands build: `'0X' +
((0x5a + 0x0a + 0x00 + parseInt(year,16) + parseInt(month,16) +
parseInt(day,16) + parseInt(hour,16) + parseInt(minutes,16) + 2) % 256)
.toString(16)`.  Note the third summand is `parseInt('00',16) = 0`, not the
frame's opcode byte. -/
def glucometerChecksumLiteral (year month dayNumber hour minutes : List Char) :
    List Char :=
  jsHexLiteral
    ((0x5a + 0x0a + 0x00 +
      parseIntHexVal year + parseIntHexVal month + parseIntHexVal dayNumber +
      parseIntHexVal hour + parseIntHexVal minutes + 2) % 256)

/-- The 10-element `Uint8Array` both glucometer commands build, with opcode
byte 2 being `0x03` (fetch additional record) or `0x00` (time set).  The
date fields are the strings `'0X' + field.toString(16)`, converted back to
numbers by the `Uint8Array` element store. -/
def glucometerFrame (opcode Y M D H Min : Nat) : List Nat :=
  let year := jsHexLiteral Y
  let month := jsHexLiteral M
  let dayNumber := jsHexLiteral D
  let hour := jsHexLiteral H
  let minutes := jsHexLiteral Min
  [0x5a, 0x0a, opcode % 256,
   toUint8OfHexString year, toUint8OfHexString month, toUint8OfHexString dayNumber,
   toUint8OfHexString hour, toUint8OfHexString minutes, 0x00,
   toUint8OfHexString (glucometerChecksumLiteral year month dayNumber hour minutes)]

/-- `fetchAdditionalGlucometerRecord` payload (lines 1947–1970) for the
wall-clock fields `Y/M/D/H/Min`. -/
def fetchAdditionalGlucometerRecordFrame (Y M D H Min : Nat) : List Nat :=
  glucometerFrame 0x03 Y M D H Min

/-- `setGlucometerTime` payload (lines 2003–2026) for the wall-clock fields
`Y/M/D/H/Min`. -/
def setGlucometerTimeFrame (Y M D H Min : Nat) : List Nat :=
  glucometerFrame 0x00 Y M D H Min

/-- Sum of a byte list (for stating additive-checksum properties). -/
def listSum (l : List Nat) : Nat :=
  l.foldl (fun s v => s + v) 0

/-! ## Error model and operation mediation (`_destroyPromises` lines
146–159, `destroy` lines 239–252, `_callPromise` lines 272–285)

`BleError` / `BleErrorCode` / `parseBleError` live in `./BleError`, which is
not part of the sources; they are modelled from the spec. -/

/-- Modelled from the spec: the `BleErrorCode` taxonomy, of which the core
must recognize at least operation-cancelled, manager-destroyed and
transport-reported failure (`./BleError` is not in the sources). -/
inductive BleErrorCode where
  | BluetoothManagerDestroyed
  | OperationCancelled
  | UnknownError
deriving DecidableEq

/-- Modelled from the spec: a `StructuredError` with its error code and
optional reason (`./BleError` is not in the sources). -/
structure BleError where
  errorCode : BleErrorCode
  reason : Option String
deriving DecidableEq

/-- Modelled from the spec: the raw failure message of a `BleError` carries
its structured code, which the configured code→message mapping lets
`parseBleError` recover (`./BleError` is not in the sources). -/
def bleErrorMessage (e : BleError) : BleErrorCode :=
  e.errorCode

/-- Modelled from the spec: `parseBleError(message, mapping)` translates a
raw failure message into a `StructuredError` with the code the message
carries (`./BleError` is not in the sources). -/
def parseBleError (message : BleErrorCode) : BleError :=
  { errorCode := message, reason := none }

/-- The error `_destroyPromises` constructs (lines 147–155): error code
`BleErrorCode.BluetoothManagerDestroyed`, no platform codes, no reason. -/
def destroyedError : BleError :=
  { errorCode := .BluetoothManagerDestroyed, reason := none }

/-- Settlement of one mediated operation. -/
inductive PromiseResult where
  | resolved (value : Nat)
  | rejected (error : BleError)
deriving DecidableEq

/-- What first settles the race inside `_callPromise`: the registry-driven
forced rejection (`destroyPromise`), or the underlying transport call. -/
inductive RaceWinner where
  | forced (error : BleError)
  | transport (outcome : PromiseResult)
deriving DecidableEq

/-- `_callPromise` (lines 272–285): `Promise.race([destroyPromise,
promise])`; a winning value is returned as-is, any rejection is re-thrown
as `parseBleError(error.message, mapping)`. -/
def callPromiseSettle (first : RaceWinner) : PromiseResult :=
  match first with
  | .forced e => .rejected (parseBleError (bleErrorMessage e))
  | .transport (.resolved v) => .resolved v
  | .transport (.rejected e) => .rejected (parseBleError (bleErrorMessage e))

/-- `_destroyPromises` (lines 146–159) as observed through `_callPromise`:
every id in `_activePromises` has its hook invoked with `destroyedError`,
which makes that operation's race settle as a forced rejection. -/
def destroyPromisesResults (pending : List Nat) : List (Nat × PromiseResult) :=
  pending.map (fun id => (id, callPromiseSettle (.forced destroyedError)))

/-! ## Subscription mediation (`_handleMonitorCharacteristic`, lines
1461–1507) -/

/-- The manager state touched by `_handleMonitorCharacteristic` and the
removal closures it creates: the unique-id counter, the keys of
`this._activeSubscriptions`, the inner `EventEmitter` subscriptions that
have been detached, and the `BleModule.cancelTransaction` calls issued, in
order. -/
structure MonitorState where
  uniqueId : Nat
  activeSubscriptions : List Nat
  emitterRemovals : List Nat
  cancelCalls : List String
deriving DecidableEq

/-- `wrappedSubscription.remove` (lines 1483–1488): guarded by presence of
`id` in `this._activeSubscriptions`; when present, the key is deleted and
the inner emitter subscription is removed, otherwise nothing happens. -/
def wrappedSubscriptionRemove (id : Nat) (s : MonitorState) : MonitorState :=
  if id ∈ s.activeSubscriptions then
    { s with
      activeSubscriptions := s.activeSubscriptions.filter (fun k => k ≠ id),
      emitterRemovals := s.emitterRemovals ++ [id] }
  else s

/-- The `remove` of the subscription `_handleMonitorCharacteristic`
*returns* to its caller (lines 1502–1506): an unguarded
`BleModule.cancelTransaction(transactionId)` on every invocation. -/
def returnedSubscriptionRemove (transactionId : String) (s : MonitorState) :
    MonitorState :=
  { s with cancelCalls := s.cancelCalls ++ [transactionId] }

/-- The synchronous state effects of `_handleMonitorCharacteristic` (lines
1479–1506): a fresh id, registration of the guarded `wrappedSubscription`
under that id, and the returned subscription whose `remove` is the
unguarded transport cancel.  (The asynchronous continuation of
`monitorPromise` later calls `wrappedSubscription.remove()`.) -/
def handleMonitorCharacteristic (transactionId : String) (s0 : MonitorState) :
    MonitorState × Nat × (MonitorState → MonitorState) :=
  let id := s0.uniqueId + 1
  let s1 : MonitorState :=
    { s0 with
      uniqueId := id,
      activeSubscriptions := s0.activeSubscriptions ++ [id] }
  (s1, id, returnedSubscriptionRemove transactionId)

/-- The event filter `monitorListener` installed on the shared `ReadEvent`
channel (lines 1466–1477): an event carries `(error?, characteristic,
msgTransactionId)`; the caller's listener is invoked (with a parsed error,
or with the characteristic) only when the event's transaction id equals the
subscription's; otherwise the event is dropped.  The result is `none` when
the listener is not invoked, `some (error?, characteristic?)` when it is. -/
def monitorListener (transactionId : String) (error : Option BleErrorCode)
    (characteristic : Nat) (msgTransactionId : String) :
    Option (Option BleError × Option Nat) :=
  if transactionId ≠ msgTransactionId then none
  else
    match error with
    | some e => some (some (parseBleError e), none)
    | none => some (none, some characteristic)

/-- An initial manager state (fresh `BleManager` with no subscriptions). -/
def initialMonitorState : MonitorState :=
  { uniqueId := 0, activeSubscriptions := [], emitterRemovals := [], cancelCalls := [] }

/-! ## Bitwise helper lemmas -/

/-- Extracting a 6-bit field: mask with `63 << k`, then shift right by `k`. -/
theorem and_shl63_shr (x k : Nat) : (x &&& (63 <<< k)) >>> k = x / 2 ^ k % 64 := by
  have h : (x &&& (63 <<< k)) >>> k = (x >>> k) &&& 63 := by
    apply Nat.eq_of_testBit_eq
    intro i
    simp [Nat.testBit_shiftRight, Nat.testBit_and, Nat.testBit_shiftLeft]
  rw [h, Nat.shiftRight_eq_div_pow]
  have h64 : (63 : Nat) = 2 ^ 6 - 1 := by norm_num
  rw [h64, Nat.and_pow_two_sub_one_eq_mod]

/-- Bitwise or is addition when the left side is a multiple of `2 ^ k` and
the right side fits in `k` bits. -/
theorem lor_eq_add_of_lt (a b k : Nat) (ha : a % 2 ^ k = 0) (hb : b < 2 ^ k) :
    a ||| b = a + b := by
  obtain ⟨c, rfl⟩ := Nat.dvd_of_mod_eq_zero ha
  exact (Nat.mul_add_lt_is_or hb c).symm

/-- Masking with `2 ^ n - 1` is reduction modulo `2 ^ n`. -/
theorem and_mod_pow2 (x n : Nat) : x &&& (2 ^ n - 1) = x % 2 ^ n :=
  Nat.and_pow_two_sub_one_eq_mod x n

/-- The source's 3-byte chunk combination, arithmetically. -/
theorem chunk3_eq (x y z : Nat) (hy : y < 256) (hz : z < 256) :
    (x <<< 16) ||| (y <<< 8) ||| z = x * 65536 + y * 256 + z := by
  have e16 : (2 : Nat) ^ 16 = 65536 := by norm_num
  have e8 : (2 : Nat) ^ 8 = 256 := by norm_num
  rw [Nat.shiftLeft_eq, Nat.shiftLeft_eq, e16, e8]
  rw [lor_eq_add_of_lt (x * 65536) (y * 256) 16 (by rw [e16]; omega) (by rw [e16]; omega)]
  rw [lor_eq_add_of_lt _ z 8 (by rw [e8]; omega) (by rw [e8]; omega)]

/-! ## Alphabet facts (finite checks) -/

/-- Decoding inverts the alphabet table on every index below 64. -/
theorem decode_encChar_fin : ∀ m : Fin 64, decodeBase64Char (encChar m.val) = m.val := by
  decide

/-- No alphabet character is the padding character. -/
theorem encChar_ne_pad_fin : ∀ m : Fin 64, encChar m.val ≠ '=' := by
  decide

/-- Decoding inverts the alphabet table below index 64. -/
theorem decode_encChar (n : Nat) (h : n < 64) : decodeBase64Char (encChar n) = n :=
  decode_encChar_fin ⟨n, h⟩

/-- An alphabet character at an index below 64 is not `'='`. -/
theorem encChar_ne_pad (n : Nat) (h : n < 64) : encChar n ≠ '=' :=
  encChar_ne_pad_fin ⟨n, h⟩

set_option maxRecDepth 4096 in
/-- The `'0X…'` hex literals round-trip through `parseInt(·, 16)` on the
byte range. -/
theorem hexLit_roundtrip_fin :
    ∀ m : Fin 256, parseIntHex16 (jsHexLiteral m.val) = some m.val := by
  decide

/-- Hex-literal round trip, Nat form. -/
theorem hexLit_roundtrip (n : Nat) (h : n < 256) : parseIntHex16 (jsHexLiteral n) = some n :=
  hexLit_roundtrip_fin ⟨n, h⟩

/-- A `Uint8Array` store of a generated hex literal recovers the value. -/
theorem toUint8_hexLit (n : Nat) (h : n < 256) : toUint8OfHexString (jsHexLiteral n) = n := by
  simp [toUint8OfHexString, hexLit_roundtrip n h, Nat.mod_eq_of_lt h]

/-- `parseInt(·, 16)` of a generated hex literal recovers the value. -/
theorem parseIntHexVal_hexLit (n : Nat) (h : n < 256) : parseIntHexVal (jsHexLiteral n) = n := by
  simp [parseIntHexVal, hexLit_roundtrip n h]

/-! ## Base64 round-trip lemmas -/

/-- A standard decoder inverts the encoder's main-loop chunk. -/
theorem decodeBase64_encodeTriple (x y z : Nat) (hx : x < 256) (hy : y < 256)
    (hz : z < 256) (rest : List Char) :
    decodeBase64 (encodeTriple x y z ++ rest) = x :: y :: z :: decodeBase64 rest := by
  have hc := chunk3_eq x y z hy hz
  set chunk := (x <<< 16) ||| (y <<< 8) ||| z with hchunk
  have hA : (chunk &&& 16515072) >>> 18 = chunk / 262144 % 64 := by
    have hm : (16515072 : Nat) = 63 <<< 18 := by rw [Nat.shiftLeft_eq]
    rw [hm, and_shl63_shr]; norm_num
  have hB : (chunk &&& 258048) >>> 12 = chunk / 4096 % 64 := by
    have hm : (258048 : Nat) = 63 <<< 12 := by rw [Nat.shiftLeft_eq]
    rw [hm, and_shl63_shr]; norm_num
  have hC : (chunk &&& 4032) >>> 6 = chunk / 64 % 64 := by
    have hm : (4032 : Nat) = 63 <<< 6 := by rw [Nat.shiftLeft_eq]
    rw [hm, and_shl63_shr]; norm_num
  have hD : chunk &&& 63 = chunk % 64 := by
    have hm : (63 : Nat) = 2 ^ 6 - 1 := by norm_num
    rw [hm, and_mod_pow2]; norm_num
  have bA : chunk / 262144 % 64 < 64 := Nat.mod_lt _ (by norm_num)
  have bB : chunk / 4096 % 64 < 64 := Nat.mod_lt _ (by norm_num)
  have bC : chunk / 64 % 64 < 64 := Nat.mod_lt _ (by norm_num)
  have bD : chunk % 64 < 64 := Nat.mod_lt _ (by norm_num)
  have e18 : (2 : Nat) ^ 18 = 262144 := by norm_num
  have e12 : (2 : Nat) ^ 12 = 4096 := by norm_num
  have e6 : (2 : Nat) ^ 6 = 64 := by norm_num
  have e16 : (2 : Nat) ^ 16 = 65536 := by norm_num
  have e8 : (2 : Nat) ^ 8 = 256 := by norm_num
  simp only [encodeTriple, ← hchunk, hA, hB, hC, hD, List.cons_append, List.nil_append]
  rw [decodeBase64, if_neg (encChar_ne_pad _ bC), if_neg (encChar_ne_pad _ bD)]
  simp only [decode_encChar _ bA, decode_encChar _ bB, decode_encChar _ bC, decode_encChar _ bD,
             Nat.shiftLeft_eq, Nat.shiftRight_eq_div_pow, e18, e12, e6, e16, e8]
  rw [lor_eq_add_of_lt (chunk / 262144 % 64 * 262144) (chunk / 4096 % 64 * 4096) 18
        (by rw [e18]; omega) (by rw [e18]; omega)]
  rw [lor_eq_add_of_lt _ (chunk / 64 % 64 * 64) 12 (by rw [e12]; omega) (by rw [e12]; omega)]
  rw [lor_eq_add_of_lt _ (chunk % 64) 6 (by rw [e6]; omega) (by rw [e6]; omega)]
  have hx1 : (chunk / 262144 % 64 * 262144 + chunk / 4096 % 64 * 4096 +
      chunk / 64 % 64 * 64 + chunk % 64) / 65536 = x := by omega
  have hy1 : (chunk / 262144 % 64 * 262144 + chunk / 4096 % 64 * 4096 +
      chunk / 64 % 64 * 64 + chunk % 64) / 256 % 256 = y := by omega
  have hz1 : (chunk / 262144 % 64 * 262144 + chunk / 4096 % 64 * 4096 +
      chunk / 64 % 64 * 64 + chunk % 64) % 256 = z := by omega
  rw [hx1, hy1, hz1]

/-- A standard decoder inverts the encoder's 1-leftover-byte branch. -/
theorem decodeBase64_encodeRemainder1 (x : Nat) (hx : x < 256) :
    decodeBase64 (encodeRemainder1 x) = [x] := by
  have hA : (x &&& 252) >>> 2 = x / 4 % 64 := by
    have hm : (252 : Nat) = 63 <<< 2 := by rw [Nat.shiftLeft_eq]
    rw [hm, and_shl63_shr]; norm_num
  have hB : (x &&& 3) <<< 4 = x % 4 * 16 := by
    have hm : (3 : Nat) = 2 ^ 2 - 1 := by norm_num
    rw [hm, and_mod_pow2, Nat.shiftLeft_eq]; norm_num
  have bA : x / 4 % 64 < 64 := Nat.mod_lt _ (by norm_num)
  have bB : x % 4 * 16 < 64 := by omega
  simp only [encodeRemainder1, hA, hB]
  rw [decodeBase64, if_pos rfl]
  simp only [decode_encChar _ bA, decode_encChar _ bB,
             Nat.shiftLeft_eq, Nat.shiftRight_eq_div_pow]
  rw [lor_eq_add_of_lt (x / 4 % 64 * 2 ^ 2) (x % 4 * 16 / 2 ^ 4) 2 (by norm_num)
        (by norm_num; omega)]
  norm_num
  omega

/-- A standard decoder inverts the encoder's 2-leftover-byte branch. -/
theorem decodeBase64_encodeRemainder2 (x y : Nat) (hx : x < 256) (hy : y < 256) :
    decodeBase64 (encodeRemainder2 x y) = [x, y] := by
  have hc : (x <<< 8) ||| y = x * 256 + y := by
    have e8 : (2 : Nat) ^ 8 = 256 := by norm_num
    rw [Nat.shiftLeft_eq, e8,
        lor_eq_add_of_lt (x * 256) y 8 (by rw [e8]; omega) (by rw [e8]; omega)]
  obtain ⟨chunk, hchunk⟩ : ∃ c, (x <<< 8) ||| y = c := ⟨_, rfl⟩
  rw [hchunk] at hc
  have hA : (chunk &&& 64512) >>> 10 = chunk / 1024 % 64 := by
    have hm : (64512 : Nat) = 63 <<< 10 := by rw [Nat.shiftLeft_eq]
    rw [hm, and_shl63_shr]; norm_num
  have hB : (chunk &&& 1008) >>> 4 = chunk / 16 % 64 := by
    have hm : (1008 : Nat) = 63 <<< 4 := by rw [Nat.shiftLeft_eq]
    rw [hm, and_shl63_shr]; norm_num
  have hC : (chunk &&& 15) <<< 2 = chunk % 16 * 4 := by
    have hm : (15 : Nat) = 2 ^ 4 - 1 := by norm_num
    rw [hm, and_mod_pow2, Nat.shiftLeft_eq]; norm_num
  have bA : chunk / 1024 % 64 < 64 := Nat.mod_lt _ (by norm_num)
  have bB : chunk / 16 % 64 < 64 := Nat.mod_lt _ (by norm_num)
  have bC : chunk % 16 * 4 < 64 := by omega
  have e18 : (2 : Nat) ^ 18 = 262144 := by norm_num
  have e12 : (2 : Nat) ^ 12 = 4096 := by norm_num
  have e6 : (2 : Nat) ^ 6 = 64 := by norm_num
  have e16 : (2 : Nat) ^ 16 = 65536 := by norm_num
  have e8 : (2 : Nat) ^ 8 = 256 := by norm_num
  simp only [encodeRemainder2, hchunk, hA, hB, hC]
  rw [decodeBase64, if_neg (encChar_ne_pad _ bC), if_pos rfl]
  simp only [decode_encChar _ bA, decode_encChar _ bB, decode_encChar _ bC,
             Nat.shiftLeft_eq, Nat.shiftRight_eq_div_pow, e18, e12, e6, e16, e8]
  rw [lor_eq_add_of_lt (chunk / 1024 % 64 * 262144) (chunk / 16 % 64 * 4096) 18
        (by rw [e18]; omega) (by rw [e18]; omega)]
  rw [lor_eq_add_of_lt _ (chunk % 16 * 4 * 64) 12 (by rw [e12]; omega) (by rw [e12]; omega)]
  have h1 : (chunk / 1024 % 64 * 262144 + chunk / 16 % 64 * 4096 + chunk % 16 * 4 * 64) / 65536
      = x := by omega
  have h2 : (chunk / 1024 % 64 * 262144 + chunk / 16 % 64 * 4096 + chunk % 16 * 4 * 64) / 256 % 256
      = y := by omega
  rw [h1, h2]

/-- A standard decoder inverts the whole chunk loop on byte inputs. -/
theorem decode_encodeChunks :
    ∀ l : List Nat, (∀ v ∈ l, v < 256) → decodeBase64 (encodeChunks l) = l
  | x :: y :: z :: w :: rest, h => by
    rw [encodeChunks, decodeBase64_encodeTriple x y z (h x (by simp)) (h y (by simp))
          (h z (by simp)) _,
        decode_encodeChunks (w :: rest) (fun v hv => h v (by simp [hv]))]
  | [x, y, z], h => by
    rw [encodeChunks, decodeBase64_encodeTriple x y z (h x (by simp)) (h y (by simp))
          (h z (by simp)) _]
    rfl
  | [x, y], h => by
    rw [encodeChunks, decodeBase64_encodeRemainder2 x y (h x (by simp)) (h y (by simp))]
  | [x], h => by
    rw [encodeChunks, decodeBase64_encodeRemainder1 x (h x (by simp))]
  | [], _ => rfl

/-! ## Padding-count lemmas -/

/-- `takeWhile` over an append stops inside the first part when that part
has a failing element. -/
theorem takeWhile_append_of_not_all (p : Char → Bool) (c : Char) :
    ∀ (l1 l2 : List Char), c ∈ l1 → p c = false →
      (l1 ++ l2).takeWhile p = l1.takeWhile p
  | [], _, hc, _ => absurd hc (by simp)
  | d :: l1', l2, hc, hpc => by
    by_cases hpd : p d = true
    · have hcl : c ∈ l1' := by
        rcases List.mem_cons.1 hc with rfl | hm
        · rw [hpd] at hpc; exact absurd hpc (by simp)
        · exact hm
      simp only [List.cons_append, List.takeWhile_cons, hpd]
      rw [takeWhile_append_of_not_all p c l1' l2 hcl hpc]
    · have hpd' : p d = false := by revert hpd; cases p d <;> simp
      simp [List.cons_append, List.takeWhile_cons, hpd']

/-- A prefix does not contribute trailing padding when the suffix contains a
non-padding character. -/
theorem padCount_append_of_mem (l1 l2 : List Char) (c : Char) (hc : c ∈ l2)
    (hne : c ≠ '=') : padCount (l1 ++ l2) = padCount l2 := by
  unfold padCount
  rw [List.reverse_append,
      takeWhile_append_of_not_all _ c l2.reverse l1.reverse (List.mem_reverse.2 hc)
        (by simp [hne])]

/-- The encoding of a nonempty byte list starts with an alphabet character. -/
theorem encodeChunks_cons :
    ∀ l : List Nat, l ≠ [] → ∃ k t, encodeChunks l = encChar k :: t ∧ k < 64
  | x :: y :: z :: rest, _ => by
    have he : encodeChunks (x :: y :: z :: rest) =
        encChar ((((x <<< 16) ||| (y <<< 8) ||| z) &&& 16515072) >>> 18) ::
          (encChar ((((x <<< 16) ||| (y <<< 8) ||| z) &&& 258048) >>> 12) ::
            encChar ((((x <<< 16) ||| (y <<< 8) ||| z) &&& 4032) >>> 6) ::
              encChar (((x <<< 16) ||| (y <<< 8) ||| z) &&& 63) :: encodeChunks rest) := by
      simp [encodeChunks, encodeTriple]
    refine ⟨_, _, he, ?_⟩
    have hm : (16515072 : Nat) = 63 <<< 18 := by rw [Nat.shiftLeft_eq]
    rw [hm, and_shl63_shr]
    exact Nat.mod_lt _ (by norm_num)
  | [x, y], _ => by
    have he : encodeChunks [x, y] =
        encChar ((((x <<< 8) ||| y) &&& 64512) >>> 10) ::
          (encChar ((((x <<< 8) ||| y) &&& 1008) >>> 4) ::
            encChar ((((x <<< 8) ||| y) &&& 15) <<< 2) :: ['=']) := by
      simp [encodeChunks, encodeRemainder2]
    refine ⟨_, _, he, ?_⟩
    have hm : (64512 : Nat) = 63 <<< 10 := by rw [Nat.shiftLeft_eq]
    rw [hm, and_shl63_shr]
    exact Nat.mod_lt _ (by norm_num)
  | [x], _ => by
    have he : encodeChunks [x] =
        encChar ((x &&& 252) >>> 2) :: (encChar ((x &&& 3) <<< 4) :: ['=', '=']) := by
      simp [encodeChunks, encodeRemainder1]
    refine ⟨_, _, he, ?_⟩
    have hm : (252 : Nat) = 63 <<< 2 := by rw [Nat.shiftLeft_eq]
    rw [hm, and_shl63_shr]
    exact Nat.mod_lt _ (by norm_num)
  | [], h => absurd rfl h

/-- The 1-leftover-byte branch ends in exactly two padding characters. -/
theorem padCount_encodeRemainder1 (x : Nat) : padCount (encodeRemainder1 x) = 2 := by
  have h3 : x &&& 3 ≤ 3 := @Nat.and_le_right x 3
  have hb : (x &&& 3) <<< 4 < 64 := by rw [Nat.shiftLeft_eq]; omega
  simp [padCount, encodeRemainder1, List.takeWhile_cons, encChar_ne_pad _ hb]

/-- The 2-leftover-byte branch ends in exactly one padding character. -/
theorem padCount_encodeRemainder2 (x y : Nat) : padCount (encodeRemainder2 x y) = 1 := by
  have h15 : ((x <<< 8) ||| y) &&& 15 ≤ 15 := @Nat.and_le_right _ 15
  have hc : (((x <<< 8) ||| y) &&& 15) <<< 2 < 64 := by rw [Nat.shiftLeft_eq]; omega
  simp [padCount, encodeRemainder2, List.takeWhile_cons, encChar_ne_pad _ hc]

/-- Length ≡ 1 (mod 3) yields exactly two trailing padding characters. -/
theorem padCount_encodeChunks_mod1 :
    ∀ l : List Nat, l.length % 3 = 1 → padCount (encodeChunks l) = 2
  | x :: y :: z :: rest, h => by
    have hr : rest.length % 3 = 1 := by simp [List.length_cons] at h; omega
    have hne : rest ≠ [] := by
      intro e; rw [e] at hr; simp at hr
    obtain ⟨k, t, he, hk⟩ := encodeChunks_cons rest hne
    rw [encodeChunks, padCount_append_of_mem _ _ (encChar k)
          (by rw [he]; exact List.mem_cons_self _ _) (encChar_ne_pad _ hk)]
    exact padCount_encodeChunks_mod1 rest hr
  | [x], _ => padCount_encodeRemainder1 x
  | [], h => by simp at h
  | [x, y], h => by simp at h

/-- Length ≡ 2 (mod 3) yields exactly one trailing padding character. -/
theorem padCount_encodeChunks_mod2 :
    ∀ l : List Nat, l.length % 3 = 2 → padCount (encodeChunks l) = 1
  | x :: y :: z :: rest, h => by
    have hr : rest.length % 3 = 2 := by simp [List.length_cons] at h; omega
    have hne : rest ≠ [] := by
      intro e; rw [e] at hr; simp at hr
    obtain ⟨k, t, he, hk⟩ := encodeChunks_cons rest hne
    rw [encodeChunks, padCount_append_of_mem _ _ (encChar k)
          (by rw [he]; exact List.mem_cons_self _ _) (encChar_ne_pad _ hk)]
    exact padCount_encodeChunks_mod2 rest hr
  | [x, y], _ => padCount_encodeRemainder2 x y
  | [], h => by simp at h
  | [x], h => by simp at h

/-! ## XOR fold lemmas -/

/-- Once the accumulator is numeric, the source's loop is the spec's fold. -/
theorem foldl_xorStep_some :
    ∀ (t : List (Option Nat)) (a : Nat), t.foldl xorStep (some a) = some (t.foldl specXorStep a)
  | [], _ => rfl
  | none :: t, a => by
    simp only [List.foldl_cons, xorStep, specXorStep]
    exact foldl_xorStep_some t a
  | some v :: t, a => by
    simp only [List.foldl_cons, xorStep, specXorStep, Option.getD_some]
    exact foldl_xorStep_some t (a ^^^ v)

/-- A NaN accumulator behaves as 0 once any numeric element is folded. -/
theorem foldl_xorStep_none :
    ∀ t : List (Option Nat), t.any Option.isSome = true →
      t.foldl xorStep none = some (t.foldl specXorStep 0)
  | [], h => by simp at h
  | none :: t, h => by
    have ht : t.any Option.isSome = true := by simpa using h
    simp only [List.foldl_cons, xorStep, specXorStep]
    exact foldl_xorStep_none t ht
  | some v :: t, _ => by
    simp only [List.foldl_cons, xorStep, specXorStep, Option.getD_none, Nat.zero_xor]
    exact foldl_xorStep_some t v

/-! ## Glucometer frame lemma -/

/-- Both glucometer frames, with the hex-literal round trips discharged:
the trailing byte sums `0x5a`, `0x0a`, `0x00` (not the opcode byte), the
five date fields and the constant 2. -/
theorem glucometerFrame_eq (opcode Y M D H Min : Nat)
    (hY : Y < 256) (hM : M < 256) (hD : D < 256) (hH : H < 256) (hMin : Min < 256) :
    glucometerFrame opcode Y M D H Min =
      [0x5a, 0x0a, opcode % 256, Y, M, D, H, Min, 0x00,
       (0x5a + 0x0a + 0x00 + Y + M + D + H + Min + 2) % 256] := by
  have hck : (0x5a + 0x0a + 0x00 + Y + M + D + H + Min + 2) % 256 < 256 :=
    Nat.mod_lt _ (by norm_num)
  simp [glucometerFrame, glucometerChecksumLiteral,
        toUint8_hexLit Y hY, toUint8_hexLit M hM, toUint8_hexLit D hD,
        toUint8_hexLit H hH, toUint8_hexLit Min hMin,
        parseIntHexVal_hexLit Y hY, parseIntHexVal_hexLit M hM, parseIntHexVal_hexLit D hD,
        parseIntHexVal_hexLit H hH, parseIntHexVal_hexLit Min hMin,
        toUint8_hexLit _ hck]

/-! ## Claim theorems -/

/-- C1 (counterexample): the subscription `_handleMonitorCharacteristic`
returns does *not* make the second `remove()` a no-op — starting from a
fresh manager, removing twice issues `BleModule.cancelTransaction` twice
(`cancelCalls = ["t1", "t1"]`), and the state after the second call differs
from the state after the first. -/
theorem monitor_remove_double_cancel_cex :
    ((handleMonitorCharacteristic "t1" initialMonitorState).2.2
        ((handleMonitorCharacteristic "t1" initialMonitorState).2.2
          (handleMonitorCharacteristic "t1" initialMonitorState).1)).cancelCalls
      = ["t1", "t1"] ∧
    ¬ ((handleMonitorCharacteristic "t1" initialMonitorState).2.2
        ((handleMonitorCharacteristic "t1" initialMonitorState).2.2
          (handleMonitorCharacteristic "t1" initialMonitorState).1)
      = (handleMonitorCharacteristic "t1" initialMonitorState).2.2
          (handleMonitorCharacteristic "t1" initialMonitorState).1) := by
  decide

/-- C1 (amended): the `remove` returned by `_handleMonitorCharacteristic`
never throws (it is a total state transformer), but *every* call — the
second included — issues one transport-side
`BleModule.cancelTransaction(transactionId)`; only the internal
`wrappedSubscription` registered in `_activeSubscriptions` is guarded, and
its removal is idempotent. -/
theorem monitor_remove_behavior (transactionId : String) (s : MonitorState) (id : Nat) :
    (handleMonitorCharacteristic transactionId s).2.2
      = returnedSubscriptionRemove transactionId ∧
    (returnedSubscriptionRemove transactionId
        (returnedSubscriptionRemove transactionId s)).cancelCalls
      = s.cancelCalls ++ [transactionId, transactionId] ∧
    wrappedSubscriptionRemove id (wrappedSubscriptionRemove id s)
      = wrappedSubscriptionRemove id s := by
  refine ⟨rfl, by simp [returnedSubscriptionRemove], ?_⟩
  by_cases h : id ∈ s.activeSubscriptions
  · have hnot : id ∉ (wrappedSubscriptionRemove id s).activeSubscriptions := by
      simp [wrappedSubscriptionRemove, h, List.mem_filter]
    simp [wrappedSubscriptionRemove, h, hnot]
  · simp [wrappedSubscriptionRemove, h]

/-- C2: destroying the manager with `N` pending mediated operations fails
every one of them (`N` results, one per pending id), each with a
`StructuredError` whose code is `BluetoothManagerDestroyed`. -/
theorem destroy_rejects_all_pending (pending : List Nat) :
    (destroyPromisesResults pending).length = pending.length ∧
    ∀ r ∈ destroyPromisesResults pending,
      ∃ e, r.2 = PromiseResult.rejected e ∧
        e.errorCode = BleErrorCode.BluetoothManagerDestroyed := by
  refine ⟨by simp [destroyPromisesResults], ?_⟩
  intro r hr
  simp only [destroyPromisesResults, List.mem_map] at hr
  obtain ⟨id, _, rfl⟩ := hr
  exact ⟨parseBleError (bleErrorMessage destroyedError), rfl, rfl⟩

/-- C2 (witness): applying the teardown theorem to the single pending
operation `7`. -/
theorem destroy_rejects_all_pending_witness :
    ∃ e, ((7 : Nat), callPromiseSettle (RaceWinner.forced destroyedError)).2
        = PromiseResult.rejected e ∧
      e.errorCode = BleErrorCode.BluetoothManagerDestroyed :=
  (destroy_rejects_all_pending [7]).2
    (7, callPromiseSettle (RaceWinner.forced destroyedError)) (by decide)

/-- C3 (counterexample): `XOR` does not include the first element exactly
once: `XOR([1]) = 0`, while the spec's fold gives 1 (the first element is
both the seed and folded at index 0, cancelling itself).  On the
blood-pressure command prefix the code yields `0x2f` — the constant the
source hard-codes — while the spec's fold yields `0x2d`. -/
theorem XOR_first_element_cex :
    XOR [some 1] = some 0 ∧ specXorFold [some 1] = 1 ∧
    XOR [some 1] ≠ some (specXorFold [some 1]) ∧
    XOR [some 0x02, some 0x40, some 0xdc, some 0x01, some 0xb2] = some 0x2f ∧
    specXorFold [some 0x02, some 0x40, some 0xdc, some 0x01, some 0xb2] = 0x2d := by
  decide

/-- C3 (amended): for every array with at least one numeric element,
`XOR(b)` equals the left fold of exclusive-or over the numeric elements of
`b` *excluding the first element* (which cancels itself), with non-numeric
elements skipped. -/
theorem XOR_eq_tail_fold (input : List (Option Nat)) (h : input.any Option.isSome = true) :
    XOR input = some (specXorFold input.tail) := by
  match input with
  | [] => simp at h
  | some v :: t =>
    show (some v :: t).foldl xorStep ((some v :: t).headD none) = _
    simp only [List.headD_cons, List.foldl_cons, xorStep, Option.getD_some, Nat.xor_self,
               List.tail_cons]
    exact foldl_xorStep_some t 0
  | none :: t =>
    have ht : t.any Option.isSome = true := by simpa using h
    show (none :: t).foldl xorStep ((none :: t).headD none) = _
    simp only [List.headD_cons, List.foldl_cons, xorStep, List.tail_cons]
    exact foldl_xorStep_none t ht

/-- C3 (witness): the amended fold equation at `[1, 2]`. -/
theorem XOR_eq_tail_fold_witness : XOR [some 1, some 2] = some (specXorFold [some 2]) :=
  XOR_eq_tail_fold [some 1, some 2] (by decide)

/-- C4: `setDeviceTime` on `"2024-03-05T13:45:12"` builds the 16-byte frame
with opcode `0x01`, the two-digit year/month/day/hour/minute/second
substrings parsed as hexadecimal in bytes 1–6, zeros in bytes 7–14, and the
additive checksum (sum mod 256) of bytes 0–14 in byte 15. -/
theorem setDeviceTime_frame_spec :
    setDeviceTimeFrame ("2024-03-05T13:45:12".toList) =
      [0x01, 0x24, 0x03, 0x05, 0x13, 0x45, 0x12, 0, 0, 0, 0, 0, 0, 0, 0, 0x97] ∧
    (0x97 : Nat) =
      listSum ((setDeviceTimeFrame ("2024-03-05T13:45:12".toList)).take 15) % 256 := by
  decide

/-- C5: a standard base64 decoder inverts `base64ArrayBuffer` on every byte
buffer, and the encoding of a buffer of length ≡ 1 (mod 3) ends in exactly
two `'='` characters, length ≡ 2 (mod 3) in exactly one. -/
theorem base64_roundtrip_padding (b : List Nat) (hb : ∀ v ∈ b, v < 256) :
    decodeBase64 (base64ArrayBuffer b) = b ∧
    (b.length % 3 = 1 → padCount (base64ArrayBuffer b) = 2) ∧
    (b.length % 3 = 2 → padCount (base64ArrayBuffer b) = 1) := by
  have hmap : b.map (fun v => v % 256) = b := by
    have h1 : b.map (fun v => v % 256) = b.map id :=
      List.map_congr_left (fun v hv => Nat.mod_eq_of_lt (hb v hv))
    rw [h1, List.map_id]
  refine ⟨?_, ?_, ?_⟩
  · show decodeBase64 (encodeChunks (b.map _)) = b
    rw [hmap]
    exact decode_encodeChunks b hb
  · intro h1
    show padCount (encodeChunks (b.map _)) = 2
    rw [hmap]
    exact padCount_encodeChunks_mod1 b h1
  · intro h2
    show padCount (encodeChunks (b.map _)) = 1
    rw [hmap]
    exact padCount_encodeChunks_mod2 b h2

/-- C5 (witness): round trip and padding at the concrete buffers
`[1, 2, 3, 4]` (length mod 3 = 1) and `[1, 2]` (length mod 3 = 2). -/
theorem base64_roundtrip_padding_witness :
    decodeBase64 (base64ArrayBuffer [1, 2, 3, 4]) = [1, 2, 3, 4] ∧
    padCount (base64ArrayBuffer [1, 2, 3, 4]) = 2 ∧
    padCount (base64ArrayBuffer [1, 2]) = 1 :=
  ⟨(base64_roundtrip_padding [1, 2, 3, 4] (by decide)).1,
   (base64_roundtrip_padding [1, 2, 3, 4] (by decide)).2.1 (by decide),
   (base64_roundtrip_padding [1, 2] (by decide)).2.2 (by decide)⟩

/-- C6 (code "evaluated at the failing input"): `setUserProfileToScales`
transmits the *unclamped* age — with age 5 the gender/age byte is 5, not
the 10 the clamping policy requires — while `setUserProfileToAlternativeScale`
clamps both height (50 → 100, 300 → 218) and age (5 → 10, 150 → 98) as the
claim states. -/
theorem setUserProfileToScales_unclamped_age_bug :
    (setUserProfileToScalesBytes 5 170 ("female".toList)).getD 5 0 = 5 ∧
    setUserProfileToScalesBytes 5 170 ("female".toList)
      = [0xfd, 0x53, 0x00, 0x00, 0xff, 5, 170] ∧
    setUserProfileToAlternativeScaleFrame ("00000000".toList) 5 50 0
      = [0x81, 0x00, 0x81, 0, 0, 0, 0, 0x00, 100, 10, 0, 0x00, 0x00] ∧
    setUserProfileToAlternativeScaleFrame ("00000000".toList) 150 300 1
      = [0x81, 0x00, 0x81, 0, 0, 0, 0, 0x00, 218, 98, 1, 0x00, 0x00] := by
  decide

/-- C7 (counterexample): at the timestamp 24-03-05 13:45 the glucometer
time-set frame's last byte is 192 while the sum of the nine preceding bytes
mod 256 is 190, and the fetch-additional-record frame's last byte is 192
while its nine-byte sum mod 256 is 193 — the trailing byte is not the
additive checksum of the frame for either command. -/
theorem glucometer_checksum_cex :
    setGlucometerTimeFrame 24 3 5 13 45
      = [0x5a, 0x0a, 0x00, 24, 3, 5, 13, 45, 0x00, 192] ∧
    listSum ((setGlucometerTimeFrame 24 3 5 13 45).take 9) % 256 = 190 ∧
    fetchAdditionalGlucometerRecordFrame 24 3 5 13 45
      = [0x5a, 0x0a, 0x03, 24, 3, 5, 13, 45, 0x00, 192] ∧
    listSum ((fetchAdditionalGlucometerRecordFrame 24 3 5 13 45).take 9) % 256 = 193 := by
  decide

/-- C7 (amended): for every timestamp, the trailing byte equals the
additive checksum of the frame with the opcode byte replaced by `0x00`,
plus 2 — i.e. the nine-byte sum plus 2 for the time-set command (opcode
`0x00`) and the nine-byte sum minus 1 (plus 255 mod 256) for the
fetch-additional-record command (opcode `0x03`). -/
theorem glucometer_trailing_byte (Y M D H Min : Nat)
    (hY : Y < 256) (hM : M < 256) (hD : D < 256) (hH : H < 256) (hMin : Min < 256) :
    (setGlucometerTimeFrame Y M D H Min).getD 9 0
      = (listSum ((setGlucometerTimeFrame Y M D H Min).take 9) + 2) % 256 ∧
    (fetchAdditionalGlucometerRecordFrame Y M D H Min).getD 9 0
      = (listSum ((fetchAdditionalGlucometerRecordFrame Y M D H Min).take 9) + 255) % 256 := by
  rw [setGlucometerTimeFrame, fetchAdditionalGlucometerRecordFrame,
      glucometerFrame_eq 0x00 Y M D H Min hY hM hD hH hMin,
      glucometerFrame_eq 0x03 Y M D H Min hY hM hD hH hMin]
  simp [listSum]
  omega

/-- C7 (witness): the amended checksum relation at timestamp 24-03-05
13:45. -/
theorem glucometer_trailing_byte_witness :
    (setGlucometerTimeFrame 24 3 5 13 45).getD 9 0
      = (listSum ((setGlucometerTimeFrame 24 3 5 13 45).take 9) + 2) % 256 ∧
    (fetchAdditionalGlucometerRecordFrame 24 3 5 13 45).getD 9 0
      = (listSum ((fetchAdditionalGlucometerRecordFrame 24 3 5 13 45).take 9) + 255) % 256 :=
  glucometer_trailing_byte 24 3 5 13 45 (by decide) (by decide) (by decide) (by decide)
    (by decide)

/-- C8: the `monitorListener` filter of a subscription with transaction id
`B` never invokes the listener for an event tagged with a different id. -/
theorem monitorListener_isolation (transactionId msgTransactionId : String)
    (error : Option BleErrorCode) (characteristic : Nat)
    (h : msgTransactionId ≠ transactionId) :
    monitorListener transactionId error characteristic msgTransactionId = none := by
  simp [monitorListener, Ne.symm h]

/-- C8 (witness): an event tagged `"A"` does not reach the listener
registered for `"B"`. -/
theorem monitorListener_isolation_witness : monitorListener "B" none 7 "A" = none :=
  monitorListener_isolation "B" "A" none 7 (by decide)

/-- C9: for every input, `selectProfileAlternativeScale` faults with a
`ReferenceError` on the self-referential `measurementUnit` initializer
before any transport write is issued. -/
theorem selectProfileAlternativeScale_faults (user : List Char) :
    selectProfileAlternativeScaleValue user
        = Except.error (JSError.referenceError "measurementUnit") ∧
    selectProfileAlternativeScaleWrites user = [] :=
  ⟨rfl, rfl⟩

/-- C10: the bytes `setUserProfileToScales` transmits: byte 5 is the
*unclamped* age argument, plus 128 when gender is `'male'`, reduced mod 256
(via the `Uint16Array` store and the `Uint8Array` conversion); the clamped
`ageUnit` never reaches the frame, whereas height is clamped. -/
theorem setUserProfileToScales_bytes_eq (age height : Nat) (gender : List Char) :
    setUserProfileToScalesBytes age height gender =
      [0xfd, 0x53, 0x00, 0x00, 0xff,
       (if gender = "male".toList then age + 128 else age) % 256,
       (if height < 100 then 100 else if height > 218 then 218 else height) % 256] := by
  have hmod : ∀ a : Nat, a % 65536 % 256 = a % 256 := fun a =>
    Nat.mod_mod_of_dvd a (by norm_num)
  simp [setUserProfileToScalesBytes, setUserProfileToScalesFrame, hmod]
